import Mathlib

/-!
Verification of the core logic of the rental-management application
(`rental_management_app.py`): the tenant ledger computation
(`calculate_balance`) and the dashboard's monthly income/expense
aggregation (`show_dashboard`).

Dates are stored in the records as strings in the `YYYY-MM-DD` shape and
parsed with `datetime.strptime(s, '%Y-%m-%d')`; we embed the parser
faithfully (CPython accepts a 4-digit year, a 1- or 2-digit month in
1..12, a 1- or 2-digit day in 1..31, and then validates the calendar
date).  Calendar months are compared through their `'%Y-%m'` rendering,
which for 4-digit years agrees with the linear month index
`year * 12 + (month - 1)`; we use that index.  Monetary amounts are
embedded as integers.
-/

namespace Rental

/-- A calendar date as the Python `datetime.date` triple. -/
structure Date where
  year : Nat
  month : Nat
  day : Nat
deriving DecidableEq, Repr

/-- The linear month index used to compare `'%Y-%m'` renderings of dates:
for 4-digit years, lexicographic comparison of the `'%Y-%m'` strings is
the same as comparison of `year * 12 + (month - 1)`. -/
def Date.monthIdx (d : Date) : Nat := d.year * 12 + (d.month - 1)

/-- Calendar order on dates (how Python compares `datetime.date` values). -/
def Date.le (a b : Date) : Bool :=
  if a.year ≠ b.year then a.year < b.year
  else if a.month ≠ b.month then a.month < b.month
  else a.day ≤ b.day

/-- Gregorian leap year, as implemented by `calendar`/`datetime`. -/
def isLeap (y : Nat) : Bool := y % 4 = 0 && (y % 100 ≠ 0 || y % 400 = 0)

/-- Number of days of month `m` of year `y` (the bound `datetime` checks). -/
def daysInMonth (y m : Nat) : Nat :=
  if m = 2 then (if isLeap y then 29 else 28)
  else if m = 4 ∨ m = 6 ∨ m = 9 ∨ m = 11 then 30
  else 31

/-- Split a character list at every `'-'` (both sides of each dash kept,
empty runs included), modelling how the `'%Y-%m-%d'` pattern carves the
input at its literal dashes. -/
def splitDashes (cs : List Char) : List (List Char) :=
  match cs with
  | [] => [[]]
  | c :: rest =>
    match splitDashes rest with
    | [] => if c = '-' then [[], []] else [[c]]
    | g :: gs => if c = '-' then [] :: g :: gs else (c :: g) :: gs

/-- Every character is a decimal digit. -/
def allDigits (cs : List Char) : Bool := cs.all (fun c => c.isDigit)

/-- Numeric value of a decimal digit run. -/
def digitsToNat (cs : List Char) : Nat :=
  cs.foldl (fun acc c => acc * 10 + (c.toNat - '0'.toNat)) 0

/-- Embedding of `datetime.strptime(s, '%Y-%m-%d').date()`: the year field
is exactly four digits, the month and day fields are one or two digits
(CPython's `_strptime` accepts unpadded fields), the month is in 1..12,
the day is in 1..31, and the resulting triple must be a real calendar
date with year at least 1.  Returns `none` exactly when CPython raises
`ValueError`. -/
def parse_date (s : String) : Option Date :=
  match splitDashes s.data with
  | [ys, ms, ds] =>
    if allDigits ys ∧ allDigits ms ∧ allDigits ds ∧
       ys.length = 4 ∧ (ms.length = 1 ∨ ms.length = 2) ∧
       (ds.length = 1 ∨ ds.length = 2) then
      let y := digitsToNat ys
      let m := digitsToNat ms
      let d := digitsToNat ds
      if 1 ≤ y ∧ 1 ≤ m ∧ m ≤ 12 ∧ 1 ≤ d ∧ d ≤ daysInMonth y m then
        some ⟨y, m, d⟩
      else none
    else none
  | _ => none

/-- A tenant record as stored in the `tenants` collection. -/
structure Tenant where
  id : String
  name : String
  property : String
  rent : Int
  start_date : String
  deposit : Int
deriving DecidableEq, Repr

/-- A payment record as stored in the `payments` collection. -/
structure Payment where
  id : String
  tenant_id : String
  date : String
  amount : Int
deriving DecidableEq, Repr

/-- `get_tenant_by_id`: first tenant in session state whose id matches. -/
def get_tenant_by_id (tenants : List Tenant) (tenant_id : String) : Option Tenant :=
  tenants.find? (fun t => t.id = tenant_id)

/-- The `while current_month_iter <= previous_month` loop of
`calculate_balance`, charging one month's rent for every calendar month
from `cur` through `prev` inclusive (month indices).  Written with the
loop's trip count as structural fuel; `chargeLoop_unfold` below recovers
the literal loop shape. -/
def chargeLoopAux (rent : Int) : Nat → Int
  | 0 => 0
  | n + 1 => rent + chargeLoopAux rent n

def chargeLoop (rent : Int) (cur prev : Nat) : Int :=
  chargeLoopAux rent (prev + 1 - cur)

/-- The `total_paid_before` loop: walks every payment in session state,
parses its date (raising on a malformed one — modelled as `none`), and
accumulates the amounts of this tenant's payments whose `'%Y-%m'` month
is at most `previous_month`. -/
def total_paid_before_loop (payments : List Payment) (tenant_id : String)
    (prevIdx : Nat) : Option Int :=
  match payments with
  | [] => some 0
  | p :: ps =>
    match parse_date p.date with
    | none => none
    | some d =>
      match total_paid_before_loop ps tenant_id prevIdx with
      | none => none
      | some rest =>
        if p.tenant_id = tenant_id ∧ d.monthIdx ≤ prevIdx then
          some (p.amount + rest)
        else some rest

/-- The `paid_this_month` generator: sums this tenant's payments whose
month equals the report month; the date of a payment is parsed only after
the tenant-id test succeeds (Python's `and` short-circuits). -/
def paid_this_month_sum (payments : List Payment) (tenant_id : String)
    (reportIdx : Nat) : Option Int :=
  match payments with
  | [] => some 0
  | p :: ps =>
    if p.tenant_id = tenant_id then
      match parse_date p.date with
      | none => none
      | some d =>
        match paid_this_month_sum ps tenant_id reportIdx with
        | none => none
        | some rest =>
          if d.monthIdx = reportIdx then some (p.amount + rest) else some rest
    else paid_this_month_sum ps tenant_id reportIdx

/-- Embedding of `calculate_balance(tenant_id, report_month)` over the
session state's tenant and payment lists.  Returns
`(rent_due, balance_forwarded, total_due, paid_this_month, new_balance)`;
`none` models an uncaught `ValueError` from `datetime.strptime` on a
malformed stored date. -/
def calculate_balance (tenants : List Tenant) (payments : List Payment)
    (tenant_id : String) (report_month : Date) :
    Option (Int × Int × Int × Int × Int) :=
  match get_tenant_by_id tenants tenant_id with
  | none => some (0, 0, 0, 0, 0)
  | some tenant =>
    let rent_due := tenant.rent
    let prevIdx := report_month.monthIdx - 1
    match parse_date tenant.start_date with
    | none => none
    | some start_date =>
      let total_rent_charged_before := chargeLoop tenant.rent start_date.monthIdx prevIdx
      match total_paid_before_loop payments tenant_id prevIdx with
      | none => none
      | some total_paid_before =>
        let balance_forwarded := total_rent_charged_before - total_paid_before
        match paid_this_month_sum payments tenant_id report_month.monthIdx with
        | none => none
        | some paid_this_month =>
          let total_due := rent_due + balance_forwarded
          let new_balance := total_due - paid_this_month
          some (rent_due, balance_forwarded, total_due, paid_this_month, new_balance)

/-- The fuel formulation of `chargeLoop` satisfies the source loop's
literal recurrence. -/
theorem chargeLoop_unfold (rent : Int) (cur prev : Nat) :
    chargeLoop rent cur prev =
      if cur ≤ prev then rent + chargeLoop rent (cur + 1) prev else 0 := by
  unfold chargeLoop
  by_cases h : cur ≤ prev
  · have h1 : prev + 1 - cur = (prev + 1 - (cur + 1)) + 1 := by omega
    rw [h1]
    simp [chargeLoopAux, h]
  · have h1 : prev + 1 - cur = 0 := by omega
    rw [h1]
    simp [chargeLoopAux, h]

theorem chargeLoopAux_eq (rent : Int) (n : Nat) :
    chargeLoopAux rent n = rent * n := by
  induction n with
  | zero => simp [chargeLoopAux]
  | succ k ih =>
    simp [chargeLoopAux, ih]
    ring

/-- Closed form of the rent-charging loop: `rent` times the number of
months from `cur` through `prev` inclusive (zero when `cur > prev`). -/
theorem chargeLoop_eq (rent : Int) (cur prev : Nat) :
    chargeLoop rent cur prev = rent * ((prev + 1 - cur : Nat) : Int) := by
  unfold chargeLoop
  exact chargeLoopAux_eq rent _

/-- A successfully parsed date is a valid calendar date. -/
theorem parse_date_valid {s : String} {d : Date} (h : parse_date s = some d) :
    1 ≤ d.year ∧ 1 ≤ d.month ∧ d.month ≤ 12 ∧ 1 ≤ d.day ∧
      d.day ≤ daysInMonth d.year d.month := by
  unfold parse_date at h
  split at h
  · dsimp only at h
    split_ifs at h with h1 h2
    · injection h with h3
      subst h3
      exact h2
  · exact absurd h (by simp)

/-- A parsed date's month index is at least 12 (its year is at least 1). -/
theorem parse_date_monthIdx_ge {s : String} {d : Date}
    (h : parse_date s = some d) : 12 ≤ d.monthIdx := by
  have hv := parse_date_valid h
  unfold Date.monthIdx
  omega

/-- The `total_paid_before` loop with no payments yields 0. -/
theorem total_paid_before_loop_nil (tenant_id : String) (prevIdx : Nat) :
    total_paid_before_loop [] tenant_id prevIdx = some 0 := rfl

/-- A malformed date anywhere in the payment list makes the
`total_paid_before` loop raise, regardless of which tenant owns it. -/
theorem total_paid_before_loop_none {payments : List Payment} {p : Payment}
    (tenant_id : String) (prevIdx : Nat)
    (hp : p ∈ payments) (hbad : parse_date p.date = none) :
    total_paid_before_loop payments tenant_id prevIdx = none := by
  induction payments with
  | nil => cases hp
  | cons q qs ih =>
    rcases List.mem_cons.mp hp with hq | hq
    · subst hq
      unfold total_paid_before_loop
      rw [hbad]
    · unfold total_paid_before_loop
      rw [ih hq]
      cases parse_date q.date <;> rfl

/-- If every payment of the tenant sits in a month strictly after
`prevIdx` and every stored date parses, the `total_paid_before` loop
yields 0. -/
theorem total_paid_before_loop_eq_zero {payments : List Payment}
    {tenant_id : String} {prevIdx : Nat}
    (hdates : ∀ p ∈ payments, (parse_date p.date).isSome)
    (hafter : ∀ p ∈ payments, p.tenant_id = tenant_id →
        ∀ d, parse_date p.date = some d → prevIdx < d.monthIdx) :
    total_paid_before_loop payments tenant_id prevIdx = some 0 := by
  induction payments with
  | nil => rfl
  | cons p ps ih =>
    obtain ⟨d, hd⟩ := Option.isSome_iff_exists.mp (hdates p (by simp))
    unfold total_paid_before_loop
    rw [hd, ih (fun q hq => hdates q (by simp [hq]))
      (fun q hq hqt e he => hafter q (by simp [hq]) hqt e he)]
    have hne : ¬(p.tenant_id = tenant_id ∧ d.monthIdx ≤ prevIdx) := by
      rintro ⟨h1, h2⟩
      exact absurd h2 (Nat.not_le.mpr (hafter p (by simp) h1 d hd))
    simp [hne]

/-- If all of the tenant's payment dates parse, the `paid_this_month`
generator yields a value. -/
theorem paid_this_month_sum_isSome (payments : List Payment)
    (tenant_id : String) (reportIdx : Nat)
    (hdates : ∀ p ∈ payments, p.tenant_id = tenant_id →
        (parse_date p.date).isSome) :
    (paid_this_month_sum payments tenant_id reportIdx).isSome := by
  induction payments with
  | nil => simp [paid_this_month_sum]
  | cons p ps ih =>
    unfold paid_this_month_sum
    by_cases hpt : p.tenant_id = tenant_id
    · obtain ⟨d, hd⟩ := Option.isSome_iff_exists.mp (hdates p (by simp) hpt)
      have hrest := ih (fun q hq hqt => hdates q (by simp [hq]) hqt)
      obtain ⟨r, hr⟩ := Option.isSome_iff_exists.mp hrest
      simp only [hpt, if_true, hd, hr]
      split <;> simp
    · simp only [hpt, if_false]
      exact ih (fun q hq hqt => hdates q (by simp [hq]) hqt)

/-- Concrete tenant used by the spec's worked scenarios: rent 1000,
lease start 2024-01-01. -/
def tenantA : Tenant := ⟨"t1", "Alice", "Unit 1", 1000, "2024-01-01", 0⟩

/-- A tenant whose stored start date is not a well-formed date. -/
def tenantBad : Tenant := ⟨"t2", "Bob", "Unit 2", 900, "2024-13-xx", 0⟩

/-- C1: for every tenant with monthly rent R, lease start month S, and an
empty payment list, `calculate_balance` at any report month M with M ≥ S
returns `balanceForwarded = R × (number of calendar months from S to M−1
inclusive)`, which is `R × (monthIdx M − monthIdx S)` (zero when M = S). -/
theorem calculate_balance_no_payments (tenants : List Tenant)
    (tenant_id : String) (t : Tenant) (S M : Date)
    (hfind : get_tenant_by_id tenants tenant_id = some t)
    (hparse : parse_date t.start_date = some S)
    (hSM : S.monthIdx ≤ M.monthIdx) :
    calculate_balance tenants [] tenant_id M =
      some (t.rent, t.rent * ((M.monthIdx - S.monthIdx : Nat) : Int),
        t.rent + t.rent * ((M.monthIdx - S.monthIdx : Nat) : Int), 0,
        t.rent + t.rent * ((M.monthIdx - S.monthIdx : Nat) : Int)) := by
  have h12 : 12 ≤ S.monthIdx := parse_date_monthIdx_ge hparse
  unfold calculate_balance
  rw [hfind]
  dsimp only
  rw [hparse]
  simp only [total_paid_before_loop, paid_this_month_sum, chargeLoop_eq]
  have hc : M.monthIdx - 1 + 1 - S.monthIdx = M.monthIdx - S.monthIdx := by
    omega
  rw [hc]
  simp

/-- C2 as stated is false: with report month equal to the lease-start
month (2024-01) but a payment of 500 recorded in 2023-12, the balance
forwarded is −500, not 0 — payments from months before the report month
are subtracted even when no rent was ever charged. -/
theorem calculate_balance_at_start_counterexample :
    Date.monthIdx ⟨2024, 1, 1⟩ ≤ Date.monthIdx ⟨2024, 1, 1⟩ ∧
    parse_date tenantA.start_date = some ⟨2024, 1, 1⟩ ∧
    calculate_balance [tenantA] [⟨"p0", "t1", "2023-12-15", 500⟩] "t1"
        ⟨2024, 1, 1⟩ =
      some (1000, -500, 500, 0, 500) := by
  refine ⟨Nat.le_refl _, by decide, by decide⟩

/-- C2 amended: when the report month is identical to or earlier than the
tenant's lease-start month AND the tenant has no payment recorded in a
month strictly before the report month (all stored dates parsing),
`calculate_balance` returns `balanceForwarded = 0`. -/
theorem calculate_balance_at_or_before_start (tenants : List Tenant)
    (payments : List Payment) (tenant_id : String) (t : Tenant) (S M : Date)
    (hfind : get_tenant_by_id tenants tenant_id = some t)
    (hparse : parse_date t.start_date = some S)
    (hMS : M.monthIdx ≤ S.monthIdx)
    (hdates : ∀ p ∈ payments, (parse_date p.date).isSome)
    (hnopast : ∀ p ∈ payments, p.tenant_id = tenant_id →
        ∀ d, parse_date p.date = some d → M.monthIdx ≤ d.monthIdx) :
    ∃ r : Int × Int × Int × Int × Int,
      calculate_balance tenants payments tenant_id M = some r ∧
        r.2.1 = 0 := by
  have h12 : 12 ≤ S.monthIdx := parse_date_monthIdx_ge hparse
  have hpaid : total_paid_before_loop payments tenant_id (M.monthIdx - 1) =
      some 0 := by
    refine total_paid_before_loop_eq_zero hdates ?_
    intro p hp hpt d hd
    have h12d : 12 ≤ d.monthIdx := parse_date_monthIdx_ge hd
    have := hnopast p hp hpt d hd
    omega
  obtain ⟨ptm, hptm⟩ := Option.isSome_iff_exists.mp
    (paid_this_month_sum_isSome payments tenant_id M.monthIdx
      (fun p hp _ => hdates p hp))
  refine ⟨(t.rent, 0, t.rent + 0, ptm, t.rent + 0 - ptm), ?_, rfl⟩
  unfold calculate_balance
  rw [hfind]
  dsimp only
  rw [hparse]
  dsimp only
  rw [hpaid, hptm]
  have hc : chargeLoop t.rent S.monthIdx (M.monthIdx - 1) = 0 := by
    rw [chargeLoop_eq]
    have : M.monthIdx - 1 + 1 - S.monthIdx = 0 := by omega
    rw [this]
    simp
  rw [hc]
  norm_num

/-- C3: negative balances are preserved unclamped — for the tenant with
rent 1000 and lease start 2024-01-01 whose only payment is 2500 on
2024-01-20, the report for 2024-02 shows balanceForwarded = −1500,
totalDue = −500, endingBalance = −500. -/
theorem calculate_balance_overpayment_scenario :
    calculate_balance [tenantA] [⟨"p1", "t1", "2024-01-20", 2500⟩] "t1"
        ⟨2024, 2, 1⟩ =
      some (1000, -1500, -500, 0, -500) := by decide

/-- C4: for the tenant with rent 1000 and lease start 2024-01-01, with
payments of 1000 on 2024-01-15 and 1000 on 2024-02-10, the report for
2024-03 shows rentDue = 1000, balanceForwarded = 0, totalDue = 1000,
paidThisMonth = 0, endingBalance = 1000. -/
theorem calculate_balance_paid_up_scenario :
    calculate_balance [tenantA]
        [⟨"p1", "t1", "2024-01-15", 1000⟩, ⟨"p2", "t1", "2024-02-10", 1000⟩]
        "t1" ⟨2024, 3, 1⟩ =
      some (1000, 0, 1000, 0, 1000) := by decide

/-- C5: for every tenant id not present in the tenant list, every payment
list, and every report month, `calculate_balance` returns all five
outputs equal to zero. -/
theorem calculate_balance_unknown_tenant (tenants : List Tenant)
    (payments : List Payment) (tenant_id : String) (M : Date)
    (h : ∀ t ∈ tenants, t.id ≠ tenant_id) :
    calculate_balance tenants payments tenant_id M = some (0, 0, 0, 0, 0) := by
  unfold calculate_balance get_tenant_by_id
  rw [List.find?_eq_none.mpr (by simpa using h)]

/-- C6: `calculate_balance` signals a date-parsing error (returns no
result) whenever the found tenant's stored start date, or the date of any
stored payment it examines, fails to parse as a `%Y-%m-%d` date. -/
theorem calculate_balance_malformed_date (tenants : List Tenant)
    (payments : List Payment) (tenant_id : String) (t : Tenant) (M : Date)
    (hfind : get_tenant_by_id tenants tenant_id = some t)
    (hbad : parse_date t.start_date = none ∨
      ∃ p ∈ payments, parse_date p.date = none) :
    calculate_balance tenants payments tenant_id M = none := by
  unfold calculate_balance
  rw [hfind]
  dsimp only
  rcases hbad with hbad | ⟨p, hp, hbad⟩
  · rw [hbad]
  · rw [total_paid_before_loop_none tenant_id (M.monthIdx - 1) hp hbad]
    cases parse_date t.start_date <;> rfl

/-- Concrete instantiation of `calculate_balance_no_payments`: tenant
rent 1000 starting 2024-01, report month 2024-03, two months charged. -/
theorem calculate_balance_no_payments_witness :
    calculate_balance [tenantA] [] "t1" ⟨2024, 3, 1⟩ =
      some (1000, 2000, 3000, 0, 3000) := by
  have h := calculate_balance_no_payments [tenantA] "t1" tenantA
    ⟨2024, 1, 1⟩ ⟨2024, 3, 1⟩ (by decide) (by decide) (by decide)
  rw [h]
  decide

/-- Concrete instantiation of `calculate_balance_at_or_before_start`:
report month 2024-01 equals the lease-start month and the only payment
falls in that same month, so the balance forwarded is 0. -/
theorem calculate_balance_at_or_before_start_witness :
    ∃ r : Int × Int × Int × Int × Int,
      calculate_balance [tenantA] [⟨"p1", "t1", "2024-01-15", 700⟩] "t1"
          ⟨2024, 1, 1⟩ = some r ∧ r.2.1 = 0 := by
  refine calculate_balance_at_or_before_start [tenantA]
    [⟨"p1", "t1", "2024-01-15", 700⟩] "t1" tenantA ⟨2024, 1, 1⟩ ⟨2024, 1, 1⟩
    (by decide) (by decide) (by decide) (by decide) ?_
  intro p hp hpt d hd
  have hp1 : p = ⟨"p1", "t1", "2024-01-15", 700⟩ := by
    simpa using hp
  subst hp1
  have hd' : parse_date "2024-01-15" = some d := hd
  have : some (⟨2024, 1, 15⟩ : Date) = some d := by
    rw [← hd']
    decide
  injection this with h3
  subst h3
  decide

/-- Concrete instantiation of `calculate_balance_unknown_tenant`: no
tenant carries the requested id. -/
theorem calculate_balance_unknown_tenant_witness :
    calculate_balance [tenantA] [⟨"p1", "t1", "2024-01-15", 700⟩] "zzz"
        ⟨2024, 1, 1⟩ = some (0, 0, 0, 0, 0) :=
  calculate_balance_unknown_tenant [tenantA] [⟨"p1", "t1", "2024-01-15", 700⟩]
    "zzz" ⟨2024, 1, 1⟩ (by decide)

/-- Concrete instantiation of `calculate_balance_malformed_date`: the
found tenant's stored start date `"2024-13-xx"` does not parse. -/
theorem calculate_balance_malformed_date_witness :
    calculate_balance [tenantBad] [] "t2" ⟨2024, 1, 1⟩ = none :=
  calculate_balance_malformed_date [tenantBad] [] "t2" tenantBad ⟨2024, 1, 1⟩
    (by decide) (Or.inl (by decide))

/-!
The dashboard aggregation (`show_dashboard`).  A `Txn` is a row of the
payments or expenses dataframe after the `pd.to_datetime(...).dt.date`
conversion: a calendar date and an amount.  The pipeline filters each
frame to the inclusive `[start_date, end_date]` range, groups by the
`'%Y-%m'` period (pandas sorts group keys), outer-merges the two
summaries on the month, fills the missing side with 0, adds the
`Income − Expenses` column, and sorts the rows by month.
-/

/-- A dated money transaction, as seen by the dashboard. -/
structure Txn where
  date : Date
  amount : Int
deriving DecidableEq, Repr

/-- The `[start_date, end_date]` range test of `show_dashboard`. -/
def in_range (s e : Date) (t : Txn) : Bool :=
  Date.le s t.date && Date.le t.date e

/-- The range filter applied to a transaction frame. -/
def filter_range (txns : List Txn) (s e : Date) : List Txn :=
  txns.filter (in_range s e)

/-- The `to_period('M')` month key of a transaction. -/
def monthOf (t : Txn) : Nat := t.date.monthIdx

/-- Insert a month key into a sorted duplicate-free key list. -/
def insertMonth (m : Nat) : List Nat → List Nat
  | [] => [m]
  | x :: xs =>
    if m < x then m :: x :: xs
    else if m = x then x :: xs
    else x :: insertMonth m xs

/-- The sorted distinct key list of a `groupby` over the given keys
(pandas sorts group keys, one group per distinct key). -/
def sortedKeys (ms : List Nat) : List Nat := ms.foldr insertMonth []

/-- Sum of the amounts of the transactions of a frame lying in month `m`. -/
def month_sum (txns : List Txn) (m : Nat) : Int :=
  ((txns.filter (fun t => monthOf t = m)).map Txn.amount).sum

/-- `groupby('Month').agg(sum)` on the range-filtered frame: one
`(month, sum)` row per distinct month, keys sorted. -/
def group_summary (txns : List Txn) (s e : Date) : List (Nat × Int) :=
  let f := filter_range txns s e
  (sortedKeys (f.map monthOf)).map (fun m => (m, month_sum f m))

/-- Key lookup in a summary table (the merge's join on `'Month'`). -/
def lookupMonth (rows : List (Nat × Int)) (m : Nat) : Option Int :=
  (rows.find? (fun r => r.1 = m)).map Prod.snd

/-- The outer merge on `'Month'` with `fillna(0)`, the
`Net Income = Income − Expenses` column, and the `sort_values('Month')`:
one `(month, income, expenses, net)` row per month present in either
summary. -/
def monthly_summary (payments expenses : List Txn) (s e : Date) :
    List (Nat × Int × Int × Int) :=
  let inc := group_summary payments s e
  let ex := group_summary expenses s e
  let keys := sortedKeys (inc.map Prod.fst ++ ex.map Prod.fst)
  keys.map (fun m =>
    let i := (lookupMonth inc m).getD 0
    let x := (lookupMonth ex m).getD 0
    (m, i, x, i - x))

/-- The dashboard KPIs: range-wide total income, total expenses, and net
income. -/
def dashboard_totals (payments expenses : List Txn) (s e : Date) :
    Int × Int × Int :=
  let total_income := ((filter_range payments s e).map Txn.amount).sum
  let total_expenses := ((filter_range expenses s e).map Txn.amount).sum
  (total_income, total_expenses, total_income - total_expenses)

/-- Membership in `insertMonth`. -/
theorem mem_insertMonth {a m : Nat} {l : List Nat} :
    a ∈ insertMonth m l ↔ a = m ∨ a ∈ l := by
  induction l with
  | nil => simp [insertMonth]
  | cons x xs ih =>
    unfold insertMonth
    split_ifs with h1 h2
    · simp
    · subst h2
      simp
    · simp [ih]
      tauto

/-- `insertMonth` preserves strict sortedness. -/
theorem sorted_insertMonth {m : Nat} {l : List Nat}
    (h : List.Sorted (· < ·) l) :
    List.Sorted (· < ·) (insertMonth m l) := by
  induction l with
  | nil => simp [insertMonth]
  | cons x xs ih =>
    rw [List.sorted_cons] at h
    obtain ⟨hx, hxs⟩ := h
    unfold insertMonth
    split_ifs with h1 h2
    · rw [List.sorted_cons]
      refine ⟨?_, ?_⟩
      · intro b hb
        rcases List.mem_cons.mp hb with hb | hb
        · omega
        · have := hx b hb
          omega
      · rw [List.sorted_cons]
        exact ⟨hx, hxs⟩
    · rw [List.sorted_cons]
      exact ⟨hx, hxs⟩
    · rw [List.sorted_cons]
      refine ⟨?_, ih hxs⟩
      intro b hb
      rcases mem_insertMonth.mp hb with hb | hb
      · omega
      · exact hx b hb

/-- Membership in `sortedKeys`. -/
theorem mem_sortedKeys {a : Nat} {ms : List Nat} :
    a ∈ sortedKeys ms ↔ a ∈ ms := by
  induction ms with
  | nil => simp [sortedKeys]
  | cons x xs ih =>
    unfold sortedKeys at ih ⊢
    simp [List.foldr_cons, mem_insertMonth, ih]

/-- `sortedKeys` is strictly sorted. -/
theorem sorted_sortedKeys (ms : List Nat) :
    List.Sorted (· < ·) (sortedKeys ms) := by
  induction ms with
  | nil => simp [sortedKeys]
  | cons x xs ih =>
    unfold sortedKeys at ih ⊢
    exact sorted_insertMonth ih

/-- Two strictly sorted lists with the same members are equal. -/
theorem sorted_eq_of_mem_iff :
    ∀ {l₁ l₂ : List Nat}, List.Sorted (· < ·) l₁ →
      List.Sorted (· < ·) l₂ → (∀ m, m ∈ l₁ ↔ m ∈ l₂) → l₁ = l₂ := by
  intro l₁
  induction l₁ with
  | nil =>
    intro l₂ _ _ hmem
    cases l₂ with
    | nil => rfl
    | cons b t₂ => exact absurd ((hmem b).mpr (by simp)) (by simp)
  | cons a t₁ ih =>
    intro l₂ h₁ h₂ hmem
    cases l₂ with
    | nil => exact absurd ((hmem a).mp (by simp)) (by simp)
    | cons b t₂ =>
      rw [List.sorted_cons] at h₁ h₂
      obtain ⟨ha, ht₁⟩ := h₁
      obtain ⟨hb, ht₂⟩ := h₂
      have hab : a = b := by
        rcases List.mem_cons.mp ((hmem a).mp (by simp)) with h | h
        · exact h
        · have h1 := hb a h
          rcases List.mem_cons.mp ((hmem b).mpr (by simp)) with h' | h'
          · omega
          · have := ha b h'
            omega
      subst hab
      have : t₁ = t₂ := by
        refine ih ht₁ ht₂ ?_
        intro m
        constructor
        · intro hm
          have hlt := ha m hm
          rcases List.mem_cons.mp ((hmem m).mp (by simp [hm])) with h | h
          · omega
          · exact h
        · intro hm
          have hlt := hb m hm
          rcases List.mem_cons.mp ((hmem m).mpr (by simp [hm])) with h | h
          · omega
          · exact h
      rw [this]

/-- A month key that no transaction of the frame inhabits sums to 0. -/
theorem month_sum_eq_zero {f : List Txn} {m : Nat}
    (h : ∀ t ∈ f, ¬monthOf t = m) : month_sum f m = 0 := by
  unfold month_sum
  rw [List.filter_eq_nil_iff.mpr (by intro t ht; simpa using h t ht)]
  rfl

/-- `find?` over a keyed map of a key list retrieves by key. -/
theorem find?_keyed_map (g : Nat → Int) (m : Nat) (keys : List Nat) :
    ((keys.map (fun k => (k, g k))).find? (fun r => r.1 = m)) =
      if m ∈ keys then some (m, g m) else none := by
  induction keys with
  | nil => simp
  | cons k ks ih =>
    by_cases hk : k = m
    · subst hk
      simp
    · rw [List.map_cons, List.find?_cons_of_neg _ (by simpa using hk), ih]
      have hmem : (m ∈ k :: ks) ↔ m ∈ ks :=
        ⟨fun h => (List.mem_cons.mp h).resolve_left (fun h' => hk h'.symm),
          fun h => List.mem_cons.mpr (Or.inr h)⟩
      by_cases hm : m ∈ ks <;> simp [hm, hmem]

/-- The merged-and-zero-filled value looked up for month `m` in a group
summary is just the month's sum over the filtered frame (0 when the month
has no entry). -/
theorem lookup_group_summary (L : List Txn) (s e : Date) (m : Nat) :
    (lookupMonth (group_summary L s e) m).getD 0 =
      month_sum (filter_range L s e) m := by
  unfold lookupMonth group_summary
  rw [find?_keyed_map]
  by_cases hm : m ∈ sortedKeys ((filter_range L s e).map monthOf)
  · simp [hm]
  · simp only [hm, if_false, Option.map_none, Option.getD_none]
    refine (month_sum_eq_zero ?_).symm
    intro t ht hmt
    exact hm (mem_sortedKeys.mpr (List.mem_map.mpr ⟨t, ht, hmt⟩))

/-- The key column of a group summary. -/
theorem group_summary_keys (L : List Txn) (s e : Date) :
    (group_summary L s e).map Prod.fst =
      sortedKeys ((filter_range L s e).map monthOf) := by
  unfold group_summary
  rw [List.map_map]
  exact List.map_id _

/-- The month column of the merged summary is the sorted key set drawn
from both sides. -/
theorem monthly_summary_map_fst (P E : List Txn) (s e : Date) :
    (monthly_summary P E s e).map Prod.fst =
      sortedKeys ((group_summary P s e).map Prod.fst ++
        (group_summary E s e).map Prod.fst) := by
  unfold monthly_summary
  rw [List.map_map]
  exact List.map_id _

/-- The months listed by the merged summary are exactly the months
holding at least one in-range payment or expense. -/
theorem mem_monthly_summary_months {P E : List Txn} {s e : Date} {m : Nat} :
    m ∈ (monthly_summary P E s e).map Prod.fst ↔
      (∃ t ∈ P, in_range s e t = true ∧ monthOf t = m) ∨
      (∃ t ∈ E, in_range s e t = true ∧ monthOf t = m) := by
  rw [monthly_summary_map_fst, mem_sortedKeys, List.mem_append,
    group_summary_keys, group_summary_keys, mem_sortedKeys, mem_sortedKeys]
  unfold filter_range
  simp only [List.mem_map, List.mem_filter]
  constructor
  · rintro (⟨t, ⟨ht, hr⟩, hm⟩ | ⟨t, ⟨ht, hr⟩, hm⟩)
    · exact Or.inl ⟨t, ht, hr, hm⟩
    · exact Or.inr ⟨t, ht, hr, hm⟩
  · rintro (⟨t, ht, hr, hm⟩ | ⟨t, ht, hr, hm⟩)
    · exact Or.inl ⟨t, ⟨ht, hr⟩, hm⟩
    · exact Or.inr ⟨t, ⟨ht, hr⟩, hm⟩

/-- The merged summary's month column is strictly sorted (chronological,
one row per month). -/
theorem monthly_summary_sorted (P E : List Txn) (s e : Date) :
    List.Sorted (· < ·) ((monthly_summary P E s e).map Prod.fst) := by
  rw [monthly_summary_map_fst]
  exact sorted_sortedKeys _

/-- Every row of the merged summary carries its month's income sum, its
month's expense sum, and their difference. -/
theorem monthly_summary_row {P E : List Txn} {s e : Date}
    {r : Nat × Int × Int × Int} (hr : r ∈ monthly_summary P E s e) :
    r.2.1 = month_sum (filter_range P s e) r.1 ∧
      r.2.2.1 = month_sum (filter_range E s e) r.1 ∧
      r.2.2.2 = r.2.1 - r.2.2.1 := by
  unfold monthly_summary at hr
  simp only [List.mem_map] at hr
  obtain ⟨m, _, hrow⟩ := hr
  subst hrow
  dsimp
  rw [lookup_group_summary, lookup_group_summary]
  exact ⟨rfl, rfl, rfl⟩

/-- The per-month sum over the range-filtered frame equals the sum over
the transactions lying both in that month and in the range. -/
theorem month_sum_filter_range (L : List Txn) (s e : Date) (m : Nat) :
    month_sum (filter_range L s e) m =
      ((L.filter (fun t => decide (monthOf t = m) && in_range s e t)).map
        Txn.amount).sum := by
  unfold month_sum filter_range
  rw [List.filter_filter]

/-- Summing a pointwise sum of two functions over a list. -/
theorem sum_map_add {α : Type} (f g : α → Int) (K : List α) :
    (K.map (fun k => f k + g k)).sum = (K.map f).sum + (K.map g).sum := by
  induction K with
  | nil => simp
  | cons k ks ih =>
    simp only [List.map_cons, List.sum_cons, ih]
    ring

/-- Summing a pointwise difference of two functions over a list. -/
theorem sum_map_sub {α : Type} (f g : α → Int) (K : List α) :
    (K.map (fun k => f k - g k)).sum = (K.map f).sum - (K.map g).sum := by
  induction K with
  | nil => simp
  | cons k ks ih =>
    simp only [List.map_cons, List.sum_cons, ih]
    ring

/-- Summing an indicator of a single key over a duplicate-free key list. -/
theorem sum_map_single (j : Nat) (v : Int) :
    ∀ K : List Nat, K.Nodup →
      (K.map (fun k => if j = k then v else 0)).sum =
        if j ∈ K then v else 0 := by
  intro K
  induction K with
  | nil => simp
  | cons k ks ih =>
    intro hnd
    rw [List.nodup_cons] at hnd
    simp only [List.map_cons, List.sum_cons, ih hnd.2]
    by_cases hj : j = k
    · subst hj
      simp [hnd.1]
    · simp [hj]

/-- Prepending a transaction adds its amount to exactly its month's sum. -/
theorem month_sum_cons (t : Txn) (f : List Txn) (m : Nat) :
    month_sum (t :: f) m =
      (if monthOf t = m then t.amount else 0) + month_sum f m := by
  unfold month_sum
  rw [List.filter_cons]
  by_cases h : monthOf t = m
  · simp [h]
  · simp [h]

/-- Partition of a frame's total over any duplicate-free key list that
covers all of its months. -/
theorem sum_month_sums (f : List Txn) :
    ∀ K : List Nat, K.Nodup → (∀ t ∈ f, monthOf t ∈ K) →
      (K.map (fun m => month_sum f m)).sum = (f.map Txn.amount).sum := by
  induction f with
  | nil =>
    intro K _ _
    have : ∀ m ∈ K, month_sum [] m = 0 := by
      intro m _
      rfl
    rw [List.map_congr_left this]
    simp
  | cons t f ih =>
    intro K hnd hK
    have h1 : ∀ m ∈ K, month_sum (t :: f) m =
        (if monthOf t = m then t.amount else 0) + month_sum f m := by
      intro m _
      exact month_sum_cons t f m
    rw [List.map_congr_left h1, sum_map_add,
      sum_map_single (monthOf t) t.amount K hnd,
      ih K hnd (fun u hu => hK u (List.mem_cons.mpr (Or.inr hu)))]
    simp [hK t (List.mem_cons.mpr (Or.inl rfl))]

/-- Every month of the range-filtered payments frame appears among the
merged summary's months (and likewise for expenses, by symmetry of the
append). -/
theorem month_mem_keys_left {P E : List Txn} {s e : Date} {t : Txn}
    (ht : t ∈ filter_range P s e) :
    monthOf t ∈ (monthly_summary P E s e).map Prod.fst := by
  rw [monthly_summary_map_fst, mem_sortedKeys, List.mem_append,
    group_summary_keys, mem_sortedKeys]
  exact Or.inl (List.mem_map.mpr ⟨t, ht, rfl⟩)

theorem month_mem_keys_right {P E : List Txn} {s e : Date} {t : Txn}
    (ht : t ∈ filter_range E s e) :
    monthOf t ∈ (monthly_summary P E s e).map Prod.fst := by
  rw [monthly_summary_map_fst, mem_sortedKeys, List.mem_append,
    group_summary_keys, group_summary_keys, mem_sortedKeys, mem_sortedKeys]
  exact Or.inr (List.mem_map.mpr ⟨t, ht, rfl⟩)

/-- Permuting a frame permutes its range-filtered form. -/
theorem filter_range_perm {L L' : List Txn} (s e : Date) (h : L.Perm L') :
    (filter_range L s e).Perm (filter_range L' s e) :=
  h.filter (in_range s e)

/-- Month sums are invariant under permutation of the frame. -/
theorem month_sum_perm {f f' : List Txn} (h : f.Perm f') (m : Nat) :
    month_sum f m = month_sum f' m :=
  ((h.filter (fun t => monthOf t = m)).map Txn.amount).sum_eq

/-- Group summaries are invariant under permutation of the frame. -/
theorem group_summary_perm {L L' : List Txn} (s e : Date) (h : L.Perm L') :
    group_summary L s e = group_summary L' s e := by
  have hf : (filter_range L s e).Perm (filter_range L' s e) :=
    filter_range_perm s e h
  have hkeys : sortedKeys ((filter_range L s e).map monthOf) =
      sortedKeys ((filter_range L' s e).map monthOf) := by
    refine sorted_eq_of_mem_iff (sorted_sortedKeys _) (sorted_sortedKeys _) ?_
    intro m
    rw [mem_sortedKeys, mem_sortedKeys]
    exact (hf.map monthOf).mem_iff
  unfold group_summary
  dsimp only
  rw [hkeys]
  exact List.map_congr_left (fun m _ => by rw [month_sum_perm hf m])

/-- The whole merged summary is invariant under permutation of both
frames. -/
theorem monthly_summary_perm_eq {P P' E E' : List Txn} (s e : Date)
    (hP : P.Perm P') (hE : E.Perm E') :
    monthly_summary P E s e = monthly_summary P' E' s e := by
  unfold monthly_summary
  rw [group_summary_perm s e hP, group_summary_perm s e hE]

/-- Concrete transaction frames for the dashboard scenarios: payments of
100 on 2024-01-10 and 50 on 2024-02-05, one expense of 30 on 2024-01-20,
report range 2024-01-01 to 2024-12-31. -/
def paymentsC : List Txn := [⟨⟨2024, 1, 10⟩, 100⟩, ⟨⟨2024, 2, 5⟩, 50⟩]

def expensesC : List Txn := [⟨⟨2024, 1, 20⟩, 30⟩]

def rangeStart : Date := ⟨2024, 1, 1⟩

def rangeEnd : Date := ⟨2024, 12, 31⟩

/-- C7: the monthly aggregation produces exactly one row per calendar
month holding at least one in-range income or expense entry (its month
column is strictly increasing, so rows are chronological and months are
distinct); each row carries the month's income sum and expense sum over
exactly the transactions in that month and range (zero when a side has
none), and its net income is their difference. -/
theorem monthly_summary_spec (P E : List Txn) (s e : Date) :
    List.Sorted (· < ·) ((monthly_summary P E s e).map Prod.fst) ∧
    (∀ m : Nat, m ∈ (monthly_summary P E s e).map Prod.fst ↔
      (∃ t ∈ P, in_range s e t = true ∧ monthOf t = m) ∨
      (∃ t ∈ E, in_range s e t = true ∧ monthOf t = m)) ∧
    (∀ r ∈ monthly_summary P E s e,
      r.2.1 = ((P.filter (fun t => decide (monthOf t = r.1) &&
        in_range s e t)).map Txn.amount).sum ∧
      r.2.2.1 = ((E.filter (fun t => decide (monthOf t = r.1) &&
        in_range s e t)).map Txn.amount).sum ∧
      r.2.2.2 = r.2.1 - r.2.2.1) := by
  refine ⟨monthly_summary_sorted P E s e,
    fun m => mem_monthly_summary_months, ?_⟩
  intro r hr
  obtain ⟨h1, h2, h3⟩ := monthly_summary_row hr
  exact ⟨h1.trans (month_sum_filter_range P s e r.1),
    h2.trans (month_sum_filter_range E s e r.1), h3⟩

/-- C8: with empty transaction lists, or none in range, the aggregation
yields an empty month sequence and all-zero totals (a well-defined
result, not an error). -/
theorem monthly_summary_no_data (P E : List Txn) (s e : Date)
    (h : (P = [] ∧ E = []) ∨
      (filter_range P s e = [] ∧ filter_range E s e = [])) :
    monthly_summary P E s e = [] ∧ dashboard_totals P E s e = (0, 0, 0) := by
  have hf : filter_range P s e = [] ∧ filter_range E s e = [] := by
    rcases h with ⟨hP, hE⟩ | h
    · subst hP
      subst hE
      exact ⟨rfl, rfl⟩
    · exact h
  obtain ⟨hP, hE⟩ := hf
  constructor
  · simp only [monthly_summary, group_summary, hP, hE]
    rfl
  · simp only [dashboard_totals, hP, hE]
    rfl

/-- C9: the aggregation is order-independent — permuting either input
list leaves the output unchanged — and each row's income (respectively
expense) sum equals the sum over exactly the payments (respectively
expenses) lying in that row's month and in the range. -/
theorem monthly_summary_order_independent (P P' E E' : List Txn)
    (s e : Date) (hP : P.Perm P') (hE : E.Perm E') :
    monthly_summary P E s e = monthly_summary P' E' s e ∧
    (∀ r ∈ monthly_summary P E s e,
      r.2.1 = ((P.filter (fun t => decide (monthOf t = r.1) &&
        in_range s e t)).map Txn.amount).sum ∧
      r.2.2.1 = ((E.filter (fun t => decide (monthOf t = r.1) &&
        in_range s e t)).map Txn.amount).sum) := by
  refine ⟨monthly_summary_perm_eq s e hP hE, ?_⟩
  intro r hr
  obtain ⟨h1, h2, _⟩ := monthly_summary_row hr
  exact ⟨h1.trans (month_sum_filter_range P s e r.1),
    h2.trans (month_sum_filter_range E s e r.1)⟩

/-- C10: the rows partition the range-wide totals — row incomes sum to
total income, row expenses sum to total expenses, each row's net is its
income minus its expenses, and row nets sum to the range-wide net
income. -/
theorem monthly_summary_totals (P E : List Txn) (s e : Date) :
    ((monthly_summary P E s e).map (fun r => r.2.1)).sum =
      (dashboard_totals P E s e).1 ∧
    ((monthly_summary P E s e).map (fun r => r.2.2.1)).sum =
      (dashboard_totals P E s e).2.1 ∧
    (∀ r ∈ monthly_summary P E s e, r.2.2.2 = r.2.1 - r.2.2.1) ∧
    ((monthly_summary P E s e).map (fun r => r.2.2.2)).sum =
      (dashboard_totals P E s e).1 - (dashboard_totals P E s e).2.1 := by
  have hnodup : ((monthly_summary P E s e).map Prod.fst).Nodup :=
    (monthly_summary_sorted P E s e).nodup
  have ht1 : (dashboard_totals P E s e).1 =
      ((filter_range P s e).map Txn.amount).sum := rfl
  have ht2 : (dashboard_totals P E s e).2.1 =
      ((filter_range E s e).map Txn.amount).sum := rfl
  have hinc : ((monthly_summary P E s e).map (fun r => r.2.1)).sum =
      ((filter_range P s e).map Txn.amount).sum := by
    rw [List.map_congr_left (fun r hr => (monthly_summary_row hr).1)]
    have hmm : (monthly_summary P E s e).map
        (fun r => month_sum (filter_range P s e) r.1) =
        ((monthly_summary P E s e).map Prod.fst).map
          (fun m => month_sum (filter_range P s e) m) := by
      rw [List.map_map]
      rfl
    rw [hmm]
    exact sum_month_sums (filter_range P s e) _ hnodup
      (fun t ht => month_mem_keys_left ht)
  have hex : ((monthly_summary P E s e).map (fun r => r.2.2.1)).sum =
      ((filter_range E s e).map Txn.amount).sum := by
    rw [List.map_congr_left (fun r hr => (monthly_summary_row hr).2.1)]
    have hmm : (monthly_summary P E s e).map
        (fun r => month_sum (filter_range E s e) r.1) =
        ((monthly_summary P E s e).map Prod.fst).map
          (fun m => month_sum (filter_range E s e) m) := by
      rw [List.map_map]
      rfl
    rw [hmm]
    exact sum_month_sums (filter_range E s e) _ hnodup
      (fun t ht => month_mem_keys_right ht)
  refine ⟨ht1 ▸ hinc, ht2 ▸ hex,
    fun r hr => (monthly_summary_row hr).2.2, ?_⟩
  have hnet : ((monthly_summary P E s e).map (fun r => r.2.2.2)).sum =
      ((monthly_summary P E s e).map (fun r => r.2.1)).sum -
        ((monthly_summary P E s e).map (fun r => r.2.2.1)).sum := by
    rw [List.map_congr_left
      (fun r hr => (monthly_summary_row hr).2.2 :
        ∀ r ∈ monthly_summary P E s e, r.2.2.2 = r.2.1 - r.2.2.1)]
    exact sum_map_sub (fun r : Nat × Int × Int × Int => r.2.1)
      (fun r => r.2.2.1) _
  rw [hnet, hinc, hex, ht1, ht2]

/-- Concrete instantiation of `monthly_summary_spec`: February 2024
(month index 24289) appears among the report's months, and that month's
row income 50 is the in-range payment sum for the month. -/
theorem monthly_summary_spec_witness :
    24289 ∈ (monthly_summary paymentsC expensesC rangeStart rangeEnd).map
      Prod.fst ∧
    (50 : Int) = ((paymentsC.filter (fun t => decide (monthOf t = 24289) &&
      in_range rangeStart rangeEnd t)).map Txn.amount).sum :=
  ⟨((monthly_summary_spec paymentsC expensesC rangeStart rangeEnd).2.1
      24289).mpr (Or.inl (by decide)),
    ((monthly_summary_spec paymentsC expensesC rangeStart rangeEnd).2.2
      (24289, 50, 0, 50) (by decide)).1⟩

/-- Concrete instantiation of `monthly_summary_no_data`: empty inputs. -/
theorem monthly_summary_no_data_witness :
    monthly_summary [] [] rangeStart rangeEnd = [] ∧
      dashboard_totals [] [] rangeStart rangeEnd = (0, 0, 0) :=
  monthly_summary_no_data [] [] rangeStart rangeEnd (Or.inl ⟨rfl, rfl⟩)

/-- Concrete instantiation of `monthly_summary_order_independent`:
swapping the two payments leaves the report unchanged. -/
theorem monthly_summary_order_independent_witness :
    monthly_summary paymentsC expensesC rangeStart rangeEnd =
      monthly_summary [⟨⟨2024, 2, 5⟩, 50⟩, ⟨⟨2024, 1, 10⟩, 100⟩] expensesC
        rangeStart rangeEnd :=
  (monthly_summary_order_independent paymentsC
    [⟨⟨2024, 2, 5⟩, 50⟩, ⟨⟨2024, 1, 10⟩, 100⟩] expensesC expensesC
    rangeStart rangeEnd (List.Perm.swap _ _ _) (List.Perm.refl _)).1

end Rental
